import Mathlib

/-!
Verification development for the `saba` browser-engine core: a shallow
embedding of the HTML tokenizer (`saba_core/src/renderer/html/token.rs`),
the HTML tree builder (`saba_core/src/renderer/html/parser.rs`), the CSS
tokenizer (`saba_core/src/renderer/css/token.rs`) and the CSS parser
(`saba_core/src/renderer/css/cssom.rs`), together with theorems settling
the specification claims about them.

Rust `panic!`/`assert!`/`unimplemented!`/out-of-bounds indexing are
modelled as an explicit `Fault.panicked` result; loops whose termination
is not structural are run on an explicit fuel supply, with exhaustion
reported as `Fault.outOfFuel` (a run that exhausts every fuel bound is a
run that never terminates).
-/

namespace Saba

/-- Abnormal outcomes of running the embedded Rust code: `panicked` models a
Rust panic (failed `assert!`, `panic!`, `unimplemented!`, `expect`, or an
out-of-bounds slice index), `outOfFuel` models exhaustion of the explicit
fuel bound put on a source-level loop. -/
inductive Fault where
  | panicked (msg : String)
  | outOfFuel
  deriving Repr, DecidableEq

/-- Modelled from the spec: `saba_core/src/renderer/html/attribute.rs` is not
among the provided sources. Per the spec's data model, an `Attribute` is a
name string and a value string, built incrementally one character at a time,
tagged by whether the incoming character belongs to the name or the value. -/
structure Attribute where
  name : String
  value : String
  deriving Repr, DecidableEq

namespace Attribute

/-- Modelled from the spec: a fresh attribute with empty name and value. -/
def new : Attribute := ⟨"", ""⟩

/-- Modelled from the spec: append `c` to the name when `is_name` is true,
to the value otherwise. -/
def add_char (a : Attribute) (c : Char) (is_name : Bool) : Attribute :=
  if is_name then { a with name := a.name.push c }
  else { a with value := a.value.push c }

end Attribute

/-- Embeds `HtmlToken` from `renderer/html/token.rs` (the `Char` variant is named
`char` here because `Char` is taken by Lean's character type). -/
inductive HtmlToken where
  | StartTag (tag : String) (self_closing : Bool) (attributes : List Attribute)
  | EndTag (tag : String)
  | char (c : Char)
  | Eof
  deriving Repr, DecidableEq

/-- Embeds `State` from `renderer/html/token.rs`: the tokenizer's state machine. -/
inductive State where
  | Data
  | TagOpen
  | EndTagOpen
  | TagName
  | BeforeAttributeName
  | AttributeName
  | AfterAttributeName
  | BeforeAttributeValue
  | AttributeValueDoubleQuoted
  | AttributeValueSingleQuoted
  | AttributeValueUnquoted
  | AfterAttributeValueQuoted
  | SelfClosingStartTag
  | ScriptData
  | ScriptDataLessThanSign
  | ScriptDataEndTagOpen
  | ScriptDataEndTagName
  | TemporaryBuffer
  deriving Repr, DecidableEq

/-- Embeds `HtmlTokenizer` from `renderer/html/token.rs`. -/
structure HtmlTokenizer where
  state : State
  pos : Nat
  reconsume : Bool
  latest_token : Option HtmlToken
  input : List Char
  buf : String
  deriving Repr, DecidableEq

namespace HtmlTokenizer

/-- Embeds `HtmlTokenizer::new`. -/
def new (html : List Char) : HtmlTokenizer :=
  { state := .Data, pos := 0, reconsume := false, latest_token := none,
    input := html, buf := "" }

/-- Embeds `HtmlTokenizer::is_eof`: note the source's strict `>` comparison. -/
def is_eof (t : HtmlTokenizer) : Bool :=
  t.input.length < t.pos

/-- Embeds `HtmlTokenizer::reconsume_input`: reads `input[pos - 1]` and clears the
reconsume flag; an out-of-range read is a Rust panic. -/
def reconsume_input (t : HtmlTokenizer) : Except Fault (Char × HtmlTokenizer) :=
  if t.pos = 0 then .error (.panicked "index out of bounds")
  else
    match t.input.get? (t.pos - 1) with
    | none => .error (.panicked "index out of bounds")
    | some c => .ok (c, { t with reconsume := false })

/-- Embeds `HtmlTokenizer::consume_next_input`: reads `input[pos]` with no bounds
check (so reading at `pos = input.len()` is a Rust panic) and advances. -/
def consume_next_input (t : HtmlTokenizer) : Except Fault (Char × HtmlTokenizer) :=
  match t.input.get? t.pos with
  | none => .error (.panicked "index out of bounds")
  | some c => .ok (c, { t with pos := t.pos + 1 })

/-- Embeds `HtmlTokenizer::create_tag`. -/
def create_tag (t : HtmlTokenizer) (start_tag_token : Bool) : HtmlTokenizer :=
  if start_tag_token then
    { t with latest_token := some (.StartTag "" false []) }
  else
    { t with latest_token := some (.EndTag "") }

/-- Embeds `HtmlTokenizer::append_tag_name`: pushes a character onto the name of the
latest tag token; any other shape of `latest_token` is an assertion/panic. -/
def append_tag_name (t : HtmlTokenizer) (c : Char) : Except Fault HtmlTokenizer :=
  match t.latest_token with
  | some (.StartTag tag sc attrs) =>
      .ok { t with latest_token := some (.StartTag (tag.push c) sc attrs) }
  | some (.EndTag tag) =>
      .ok { t with latest_token := some (.EndTag (tag.push c)) }
  | some _ => .error (.panicked "latest_token should be either StartTag or EndTag")
  | none => .error (.panicked "assertion failed: latest_token is some")

/-- Embeds `HtmlTokenizer::take_latest_token`. -/
def take_latest_token (t : HtmlTokenizer) : Except Fault (HtmlToken × HtmlTokenizer) :=
  match t.latest_token with
  | none => .error (.panicked "assertion failed: latest_token is some")
  | some tok => .ok (tok, { t with latest_token := none })

/-- Embeds `HtmlTokenizer::start_new_attribute`. -/
def start_new_attribute (t : HtmlTokenizer) : Except Fault HtmlTokenizer :=
  match t.latest_token with
  | some (.StartTag tag sc attrs) =>
      .ok { t with latest_token := some (.StartTag tag sc (attrs ++ [Attribute.new])) }
  | some _ => .error (.panicked "latest_token should be either StartTag")
  | none => .error (.panicked "assertion failed: latest_token is some")

/-- Embeds `HtmlTokenizer::append_attribute`: adds a character to the most recently
created attribute of the latest start tag. -/
def append_attribute (t : HtmlTokenizer) (c : Char) (is_name : Bool) :
    Except Fault HtmlTokenizer :=
  match t.latest_token with
  | some (.StartTag tag sc attrs) =>
      match attrs.getLast? with
      | none => .error (.panicked "assertion failed: attributes nonempty")
      | some a =>
          let tok := HtmlToken.StartTag tag sc (attrs.dropLast ++ [a.add_char c is_name])
          .ok { t with latest_token := some tok }
  | some _ => .error (.panicked "latest_token should be either StartTag")
  | none => .error (.panicked "assertion failed: latest_token is some")

/-- Embeds `HtmlTokenizer::set_self_closing_flag`. -/
def set_self_closing_flag (t : HtmlTokenizer) : Except Fault HtmlTokenizer :=
  match t.latest_token with
  | some (.StartTag tag _ attrs) =>
      .ok { t with latest_token := some (.StartTag tag true attrs) }
  | some _ => .error (.panicked "latest_token should be either StartTag")
  | none => .error (.panicked "assertion failed: latest_token is some")

end HtmlTokenizer

namespace HtmlTokenizer

/-- One pass of the `loop` in `HtmlTokenizer::next` (Iterator impl,
`renderer/html/token.rs`), run on explicit fuel. Each iteration reads one
character (honouring the reconsume flag) and dispatches on the state; the
source's `continue` is a recursive call, its `return Some(tok)` is `.ok`. -/
def tokRun : Nat → HtmlTokenizer → Except Fault (HtmlToken × HtmlTokenizer)
  | 0, _ => .error .outOfFuel
  | fuel + 1, t0 => do
    let (c, t) ← if t0.reconsume then t0.reconsume_input else t0.consume_next_input
    match t.state with
    | .Data =>
        if c = '<' then tokRun fuel { t with state := .TagOpen }
        else if t.is_eof then .ok (.Eof, t)
        else .ok (.char c, t)
    | .TagOpen =>
        if c = '/' then tokRun fuel { t with state := .EndTagOpen }
        else if c.isAlpha then
          tokRun fuel (create_tag { t with reconsume := true, state := .TagName } true)
        else if t.is_eof then .ok (.Eof, t)
        else tokRun fuel { t with reconsume := true, state := .Data }
    | .EndTagOpen =>
        if t.is_eof then .ok (.Eof, t)
        else if c.isAlpha then
          tokRun fuel (create_tag { t with reconsume := true, state := .TagName } false)
        else tokRun fuel t
    | .TagName =>
        if c = ' ' then tokRun fuel { t with state := .BeforeAttributeName }
        else if c = '/' then tokRun fuel { t with state := .SelfClosingStartTag }
        else if c = '>' then do
          let (tok, t) ← take_latest_token { t with state := .Data }
          .ok (tok, t)
        else if c.isUpper then do
          let t ← t.append_tag_name c.toLower
          tokRun fuel t
        else if t.is_eof then .ok (.Eof, t)
        else do
          let t ← t.append_tag_name c
          tokRun fuel t
    | .BeforeAttributeName =>
        if c = '/' ∨ c = '>' ∨ t.is_eof then
          tokRun fuel { t with reconsume := true, state := .AfterAttributeName }
        else do
          let t ← start_new_attribute { t with reconsume := true, state := .AttributeName }
          tokRun fuel t
    | .AttributeName =>
        if c = ' ' ∨ c = '/' ∨ c = '>' ∨ t.is_eof then
          tokRun fuel { t with reconsume := true, state := .AfterAttributeName }
        else if c = '=' then tokRun fuel { t with state := .BeforeAttributeValue }
        else if c.isUpper then do
          let t ← t.append_attribute c.toLower true
          tokRun fuel t
        else do
          let t ← t.append_attribute c true
          tokRun fuel t
    | .AfterAttributeName =>
        if c = ' ' then tokRun fuel t
        else if c = '/' then tokRun fuel { t with state := .SelfClosingStartTag }
        else if c = '=' then tokRun fuel { t with state := .BeforeAttributeValue }
        else if c = '>' then do
          let (tok, t) ← take_latest_token { t with state := .Data }
          .ok (tok, t)
        else if t.is_eof then .ok (.Eof, t)
        else do
          let t ← start_new_attribute { t with reconsume := true, state := .AttributeName }
          tokRun fuel t
    | .BeforeAttributeValue =>
        if c = ' ' then tokRun fuel t
        else if c = '"' then tokRun fuel { t with state := .AttributeValueDoubleQuoted }
        else if c = '\'' then tokRun fuel { t with state := .AttributeValueSingleQuoted }
        else tokRun fuel { t with reconsume := true, state := .AttributeValueUnquoted }
    | .AttributeValueDoubleQuoted =>
        if c = '"' then tokRun fuel { t with state := .AfterAttributeValueQuoted }
        else if t.is_eof then .ok (.Eof, t)
        else do
          let t ← t.append_attribute c false
          tokRun fuel t
    | .AttributeValueSingleQuoted =>
        if c = '\'' then tokRun fuel { t with state := .AfterAttributeValueQuoted }
        else if t.is_eof then .ok (.Eof, t)
        else do
          let t ← t.append_attribute c false
          tokRun fuel t
    | .AttributeValueUnquoted =>
        if c = ' ' then tokRun fuel { t with state := .BeforeAttributeName }
        else if c = '>' then do
          let (tok, t) ← take_latest_token { t with state := .Data }
          .ok (tok, t)
        else if t.is_eof then .ok (.Eof, t)
        else do
          let t ← t.append_attribute c false
          tokRun fuel t
    | .AfterAttributeValueQuoted =>
        if c = ' ' then tokRun fuel { t with state := .BeforeAttributeName }
        else if c = '/' then tokRun fuel { t with state := .SelfClosingStartTag }
        else if c = '>' then do
          let (tok, t) ← take_latest_token { t with state := .Data }
          .ok (tok, t)
        else if t.is_eof then .ok (.Eof, t)
        else tokRun fuel { t with reconsume := true, state := .BeforeAttributeValue }
    | .SelfClosingStartTag =>
        if c = '>' then do
          let t ← t.set_self_closing_flag
          let (tok, t) ← take_latest_token { t with state := .Data }
          .ok (tok, t)
        else if t.is_eof then .ok (.Eof, t)
        else tokRun fuel t
    | .ScriptData =>
        if c = '<' then tokRun fuel { t with state := .ScriptDataLessThanSign }
        else if t.is_eof then .ok (.Eof, t)
        else .ok (.char c, t)
    | .ScriptDataLessThanSign =>
        if c = '/' then tokRun fuel { t with buf := "", state := .ScriptDataEndTagOpen }
        else .ok (.char '<', { t with reconsume := true, state := .ScriptData })
    | .ScriptDataEndTagOpen =>
        if c.isAlpha then
          tokRun fuel (create_tag { t with reconsume := true, state := .ScriptDataEndTagName } false)
        else .ok (.char '<', { t with reconsume := true, state := .ScriptData })
    | .ScriptDataEndTagName =>
        if c = '>' then do
          let (tok, t) ← take_latest_token { t with state := .Data }
          .ok (tok, t)
        else if c.isAlpha then do
          let t ← append_tag_name { t with buf := t.buf.push c } c.toLower
          tokRun fuel t
        else
          tokRun fuel { t with state := .TemporaryBuffer, buf := ("</".push c) }
    | .TemporaryBuffer =>
        let t := { t with reconsume := true }
        if t.buf.length = 0 then tokRun fuel { t with state := .ScriptData }
        else
          match t.buf.data.head? with
          | none => .error (.panicked "self.buf have least 1 char")
          | some c0 => .ok (.char c0, { t with buf := ⟨t.buf.data.tail⟩ })

/-- A fuel bound sufficient for any single `next` call: the loop consumes a
character on all but boundedly many consecutive iterations. -/
def nextFuel (t : HtmlTokenizer) : Nat := 4 * t.input.length + 16

/-- Embeds `HtmlTokenizer::next` (the `Iterator` implementation): `none` models the
Rust iterator's `None` (cursor already at or past the end on entry). -/
def next (t : HtmlTokenizer) : Except Fault (Option HtmlToken × HtmlTokenizer) :=
  if t.input.length ≤ t.pos then .ok (none, t)
  else do
    let (tok, t) ← tokRun (nextFuel t) t
    .ok (some tok, t)

/-- Drain the tokenizer: repeatedly call `next` until it yields `None`,
collecting the tokens. The outer fuel bounds the number of `next` calls. -/
def drain : Nat → HtmlTokenizer → Except Fault (List HtmlToken)
  | 0, _ => .error .outOfFuel
  | fuel + 1, t =>
    match t.next with
    | .error e => .error e
    | .ok (none, _) => .ok []
    | .ok (some tok, t') => do
        let rest ← drain fuel t'
        .ok (tok :: rest)

end HtmlTokenizer

/-- Tokenize an HTML string completely, as the repository's tokenizer tests
do: build a fresh tokenizer and collect every token it yields. -/
def tokenizeHtml (html : String) : Except Fault (List HtmlToken) :=
  HtmlTokenizer.drain (2 * html.length + 8) (HtmlTokenizer.new html.data)

/-- Embeds `CssToken` from `renderer/css/token.rs`. -/
inductive CssToken where
  | HashToken (s : String)
  | Delim (c : Char)
  | Number (n : Float)
  | Colon
  | SemiColon
  | OpenParenthesis
  | CloseParenthesis
  | OpenCurly
  | CloseCurly
  | Ident (s : String)
  | StringToken (s : String)
  | AtKeyword (s : String)
  deriving Repr

/-- Embeds `CssTokenizer` from `renderer/css/token.rs`. -/
structure CssTokenizer where
  pos : Nat
  input : List Char
  deriving Repr

namespace CssTokenizer

/-- Embeds `CssTokenizer::new`. -/
def new (css : List Char) : CssTokenizer := { pos := 0, input := css }

/-- Embeds `CssTokenizer::consume_string_token`: note the source increments `pos`
BEFORE reading `input[pos]`, so consuming the last input character reads one
past the end (a Rust panic); the `pos >= len` guard at the loop head is
checked before that increment. -/
def consume_string_token : Nat → CssTokenizer → String →
    Except Fault (String × CssTokenizer)
  | 0, _, _ => .error .outOfFuel
  | fuel + 1, t, s =>
    if t.input.length ≤ t.pos then .ok (s, t)
    else
      let t := { t with pos := t.pos + 1 }
      match t.input.get? t.pos with
      | none => .error (.panicked "index out of bounds")
      | some c =>
        if c = '"' ∨ c = '\'' then .ok (s, t)
        else consume_string_token fuel t (s.push c)

/-- Embeds `CssTokenizer::consume_numeric_token`: digit/decimal-point accumulation
into an `f64`; the loop head guards the read, so it cannot run past the end. -/
def consume_numeric_token : Nat → CssTokenizer → Float → Bool → Float →
    Except Fault (Float × CssTokenizer)
  | 0, _, _, _, _ => .error .outOfFuel
  | fuel + 1, t, num, floating, floating_digit =>
    if t.input.length ≤ t.pos then .ok (num, t)
    else
      match t.input.get? t.pos with
      | none => .error (.panicked "index out of bounds")
      | some c =>
        if '0' ≤ c ∧ c ≤ '9' then
          let d : Float := Float.ofNat (c.toNat - '0'.toNat)
          if floating then
            let fd := floating_digit * (Float.ofNat 1 / Float.ofNat 10)
            consume_numeric_token fuel { t with pos := t.pos + 1 } (num + d * fd) floating fd
          else
            consume_numeric_token fuel { t with pos := t.pos + 1 }
              (num * Float.ofNat 10 + d) floating floating_digit
        else if c = '.' then
          consume_numeric_token fuel { t with pos := t.pos + 1 } num true floating_digit
        else .ok (num, t)

/-- Embeds `CssTokenizer::consume_ident_token`: pushes `input[pos]`, then keeps
consuming identifier characters with NO bounds check on the read inside the
loop — an identifier running to the end of input reads past it (Rust panic). -/
def consume_ident_token (t : CssTokenizer) : Except Fault (String × CssTokenizer) :=
  match t.input.get? t.pos with
  | none => .error (.panicked "index out of bounds")
  | some c0 => go (t.input.length + 1) { t with pos := t.pos + 1 } (String.push "" c0)
where
  go : Nat → CssTokenizer → String → Except Fault (String × CssTokenizer)
    | 0, _, _ => .error .outOfFuel
    | fuel + 1, t, s =>
      match t.input.get? t.pos with
      | none => .error (.panicked "index out of bounds")
      | some c =>
        if ('a' ≤ c ∧ c ≤ 'z') ∨ ('A' ≤ c ∧ c ≤ 'Z') ∨ ('0' ≤ c ∧ c ≤ '9')
            ∨ c = '-' ∨ c = '_' then
          go fuel { t with pos := t.pos + 1 } (s.push c)
        else .ok (s, t)

/-- Embeds `CssTokenizer::next` (the `Iterator` implementation): the loop skips
whitespace, classifies one character, and returns a token; an input character
outside the recognized set hits the source's `unimplemented!` (a panic). -/
def next : Nat → CssTokenizer → Except Fault (Option (CssToken × CssTokenizer))
  | 0, _ => .error .outOfFuel
  | fuel + 1, t =>
    if t.input.length ≤ t.pos then .ok none
    else
      match t.input.get? t.pos with
      | none => .error (.panicked "index out of bounds")
      | some c =>
        if c = '(' then emit .OpenParenthesis t
        else if c = ')' then emit .CloseParenthesis t
        else if c = ',' then emit (.Delim ',') t
        else if c = '.' then emit (.Delim '.') t
        else if c = ':' then emit .Colon t
        else if c = ';' then emit .SemiColon t
        else if c = '{' then emit .OpenCurly t
        else if c = '}' then emit .CloseCurly t
        else if c = ' ' ∨ c = '\n' then next fuel { t with pos := t.pos + 1 }
        else if c = '"' ∨ c = '\'' then do
          let (value, t) ← consume_string_token (t.input.length + 1) t ""
          emit (.StringToken value) t
        else if '0' ≤ c ∧ c ≤ '9' then do
          let (n, t) ← consume_numeric_token (t.input.length + 1) t (Float.ofNat 0)
            false (Float.ofNat 1)
          emit (.Number n) { t with pos := t.pos - 1 }
        else if c = '#' then do
          let (value, t) ← consume_ident_token t
          emit (.HashToken value) { t with pos := t.pos - 1 }
        else if c = '-' then do
          let (value, t) ← consume_ident_token t
          emit (.Ident value) { t with pos := t.pos - 1 }
        else if c = '@' then
          if t.pos + 3 < t.input.length
              ∧ (t.input.get? (t.pos + 1)).any Char.isAlpha
              ∧ (t.input.get? (t.pos + 2)).any Char.isAlpha
              ∧ (t.input.get? (t.pos + 3)).any Char.isAlpha then do
            let (value, t) ← consume_ident_token { t with pos := t.pos + 1 }
            emit (.AtKeyword value) { t with pos := t.pos - 1 }
          else emit (.Delim '@') t
        else if ('a' ≤ c ∧ c ≤ 'z') ∨ ('A' ≤ c ∧ c ≤ 'Z') ∨ c = '_' then do
          let (value, t) ← consume_ident_token t
          emit (.Ident value) { t with pos := t.pos - 1 }
        else .error (.panicked "unimplemented: char is not implemented yet")
where
  /-- The common tail of the source's `match`: advance past the current
  character and return the token. -/
  emit (tok : CssToken) (t : CssTokenizer) :
      Except Fault (Option (CssToken × CssTokenizer)) :=
    .ok (some (tok, { t with pos := t.pos + 1 }))

/-- Drain the CSS tokenizer into a token list. -/
def drain : Nat → CssTokenizer → Except Fault (List CssToken)
  | 0, _ => .error .outOfFuel
  | fuel + 1, t =>
    match next (t.input.length + 1) t with
    | .error e => .error e
    | .ok none => .ok []
    | .ok (some (tok, t')) => do
        let rest ← drain fuel t'
        .ok (tok :: rest)

end CssTokenizer

/-- Tokenize a stylesheet string completely. -/
def tokenizeCss (css : String) : Except Fault (List CssToken) :=
  CssTokenizer.drain (css.length + 8) (CssTokenizer.new css.data)

/-- Embeds `Selector` from `renderer/css/cssom.rs`. -/
inductive Selector where
  | TypeSelector (s : String)
  | ClassSelector (s : String)
  | IdSelector (s : String)
  | UnknownSelector
  deriving Repr, DecidableEq

/-- Embeds `Declaration` from `renderer/css/cssom.rs`: a property name and exactly
one component value (a CSS token). -/
structure Declaration where
  property : String
  value : CssToken
  deriving Repr

/-- Embeds `QualifiedRule` from `renderer/css/cssom.rs`. -/
structure QualifiedRule where
  selector : Selector
  declarations : List Declaration
  deriving Repr

/-- Embeds `QualifiedRule::new`. -/
def QualifiedRule.new : QualifiedRule :=
  { selector := .TypeSelector "", declarations := [] }

/-- Embeds `StyleSheet` from `renderer/css/cssom.rs`. -/
structure StyleSheet where
  rules : List QualifiedRule
  deriving Repr

namespace CssParser

/-- The `while self.t.peek() != Some(&CssToken::OpenCurly) { self.t.next(); }`
loops inside `CssParser::consume_selector`. When the stream is exhausted,
`peek` keeps answering `None` (which differs from `Some(OpenCurly)`) and
`next` consumes nothing, so the Rust loop never exits; here that shows up as
running out of any amount of fuel. -/
def skipUntilOpenCurly : Nat → List CssToken → Except Fault (List CssToken)
  | 0, _ => .error .outOfFuel
  | fuel + 1, ts =>
    match ts.head? with
    | some .OpenCurly => .ok ts
    | _ => skipUntilOpenCurly fuel ts.tail

/-- Embeds `CssParser::consume_ident`. -/
def consume_ident (ts : List CssToken) : Except Fault (String × List CssToken) :=
  match ts with
  | [] => .error (.panicked "should have a token but got None")
  | .Ident s :: rest => .ok (s, rest)
  | _ :: _ => .error (.panicked "Parse error: unexpected token")

/-- Embeds `CssParser::consume_component_value`. -/
def consume_component_value (ts : List CssToken) :
    Except Fault (CssToken × List CssToken) :=
  match ts with
  | [] => .error (.panicked "should have a token in consume_component_value")
  | tok :: rest => .ok (tok, rest)

/-- Embeds `CssParser::consume_selector`. -/
def consume_selector (fuel : Nat) (ts : List CssToken) :
    Except Fault (Selector × List CssToken) :=
  match ts with
  | [] => .error (.panicked "should have a token but got None")
  | tok :: rest =>
    match tok with
    | .HashToken value => .ok (.IdSelector (value.drop 1), rest)
    | .Delim d =>
        if d = '.' then do
          let (name, rest) ← consume_ident rest
          .ok (.ClassSelector name, rest)
        else .error (.panicked "Parse error: unexpected token")
    | .Ident ident =>
        (match rest.head? with
         | some .Colon => do
             let rest ← skipUntilOpenCurly fuel rest
             .ok (.TypeSelector ident, rest)
         | _ => .ok (.TypeSelector ident, rest))
    | .AtKeyword _ => do
        let rest ← skipUntilOpenCurly fuel rest
        .ok (.UnknownSelector, rest)
    | _ => .ok (.UnknownSelector, rest.tail)

/-- Embeds `CssParser::consume_declaration`: `self.t.peek()?` yields `none` on an
empty stream; after the property identifier, a missing colon abandons the
declaration (the offending token is still consumed by `self.t.next()`). -/
def consume_declaration (ts : List CssToken) :
    Except Fault (Option Declaration × List CssToken) :=
  match ts with
  | [] => .ok (none, [])
  | _ :: _ => do
    let (property, ts) ← consume_ident ts
    match ts with
    | .Colon :: ts => do
        let (value, ts) ← consume_component_value ts
        .ok (some { property := property, value := value }, ts)
    | _ => .ok (none, ts.tail)

/-- Embeds `CssParser::consume_list_of_declarations`. -/
def consume_list_of_declarations : Nat → List CssToken →
    Except Fault (List Declaration × List CssToken)
  | 0, _ => .error .outOfFuel
  | fuel + 1, ts =>
    match ts.head? with
    | none => .ok ([], ts)
    | some .CloseCurly => .ok ([], ts.tail)
    | some .SemiColon => consume_list_of_declarations fuel ts.tail
    | some (.Ident _) => do
        let (od, ts) ← consume_declaration ts
        let (ds, ts) ← consume_list_of_declarations fuel ts
        match od with
        | some d => .ok (d :: ds, ts)
        | none => .ok (ds, ts)
    | some _ => consume_list_of_declarations fuel ts.tail

/-- The loop body of `CssParser::consume_qualified_rule`, carrying the rule
under construction (whose selector is overwritten on every pass). -/
def qualified_rule_loop : Nat → QualifiedRule → List CssToken →
    Except Fault (Option QualifiedRule × List CssToken)
  | 0, _, _ => .error .outOfFuel
  | fuel + 1, rule, ts =>
    match ts.head? with
    | none => .ok (none, ts)
    | some .OpenCurly => do
        let (ds, ts) ← consume_list_of_declarations fuel ts.tail
        .ok (some { rule with declarations := ds }, ts)
    | some _ => do
        let (sel, ts) ← consume_selector fuel ts
        qualified_rule_loop fuel { rule with selector := sel } ts

/-- Embeds `CssParser::consume_qualified_rule`. -/
def consume_qualified_rule (fuel : Nat) (ts : List CssToken) :
    Except Fault (Option QualifiedRule × List CssToken) :=
  qualified_rule_loop fuel QualifiedRule.new ts

/-- Embeds `CssParser::consume_list_of_rules`. -/
def consume_list_of_rules : Nat → List CssToken →
    Except Fault (List QualifiedRule)
  | 0, _ => .error .outOfFuel
  | fuel + 1, ts =>
    match ts.head? with
    | none => .ok []
    | some (.AtKeyword _) => do
        let (_rule, ts) ← consume_qualified_rule fuel ts
        consume_list_of_rules fuel ts
    | some _ => do
        let (orule, ts) ← consume_qualified_rule fuel ts
        match orule with
        | some r => do
            let rs ← consume_list_of_rules fuel ts
            .ok (r :: rs)
        | none => .ok []

/-- Embeds `CssParser::parse_stylesheet`. -/
def parse_stylesheet (fuel : Nat) (ts : List CssToken) : Except Fault StyleSheet := do
  let rules ← consume_list_of_rules fuel ts
  .ok { rules := rules }

end CssParser

/-- End-to-end CSS parsing as `Page` does it: tokenize the stylesheet string,
then run the parser over the token sequence. -/
def parseCss (css : String) : Except Fault StyleSheet := do
  let ts ← tokenizeCss css
  CssParser.parse_stylesheet (ts.length + 8) ts

/-- Modelled from the spec: `renderer/dom/node.rs` is not among the provided
sources. The spec describes element-kind classification as a pure function
from the lowercase tag name to a closed enumeration; the members are the ones used
by the tree builder and layout code: html, head, style, script, body, p,
h1, h2, a. -/
inductive ElementKind where
  | Html
  | Head
  | Style
  | Script
  | Body
  | P
  | H1
  | H2
  | A
  deriving Repr, DecidableEq

/-- Modelled from the spec: `ElementKind::from_str`, the classification from
tag name to the closed enumeration (unknown tags are an `Err`). -/
def ElementKind.from_str (s : String) : Option ElementKind :=
  if s = "html" then some .Html
  else if s = "head" then some .Head
  else if s = "style" then some .Style
  else if s = "script" then some .Script
  else if s = "body" then some .Body
  else if s = "p" then some .P
  else if s = "h1" then some .H1
  else if s = "h2" then some .H2
  else if s = "a" then some .A
  else none

/-- Modelled from the spec: an element carries its tag name, its cached
element-kind classification (computed once at creation) and its ordered
attribute list. -/
structure Element where
  tag : String
  kind : ElementKind
  attributes : List Attribute
  deriving Repr, DecidableEq

/-- Modelled from the spec: `Element::new` classifies the tag name; a tag
outside the closed enumeration cannot be represented. -/
def Element.new (tag : String) (attributes : List Attribute) : Option Element :=
  (ElementKind.from_str tag).map fun k =>
    { tag := tag, kind := k, attributes := attributes }

/-- Modelled from the spec: `NodeKind` — Document (no payload), Element, or
Text with a mutable string buffer. -/
inductive NodeKind where
  | Document
  | Element (e : Element)
  | Text (s : String)
  deriving Repr, DecidableEq

/-- Modelled from the spec: one DOM node. The spec's owning references
(first-child, next-sibling) and non-owning back references (previous-sibling,
parent, last-child as used by the tree builder's `set_last_child`) are all
stable arena indices, following the spec's own implementation note. -/
structure NodeData where
  kind : NodeKind
  first_child : Option Nat
  next_sibling : Option Nat
  previous_sibling : Option Nat
  parent : Option Nat
  last_child : Option Nat
  deriving Repr, DecidableEq

/-- A fresh node of the given kind with no links. -/
def NodeData.new (kind : NodeKind) : NodeData :=
  { kind := kind, first_child := none, next_sibling := none,
    previous_sibling := none, parent := none, last_child := none }

/-- Embeds `Node::element_kind`: the cached kind of an element node. -/
def NodeData.element_kind (n : NodeData) : Option ElementKind :=
  match n.kind with
  | .Element e => some e.kind
  | _ => none

/-- Embeds `InsertionMode` from `renderer/html/parser.rs`. -/
inductive InsertionMode where
  | Initial
  | BeforeHtml
  | BeforeHead
  | InHead
  | AfterHead
  | InBody
  | Text
  | AfterBody
  | AfterAfterBody
  deriving Repr, DecidableEq

/-- The state of `HtmlParser::construct_tree`: the `HtmlParser` struct (node
arena standing for the `Window`, insertion modes, open-element stack with its
top at the head, and the tokenizer) together with the loop-local current
`token`. Arena index 0 is the `Document` root owned by the `Window`. -/
structure ParserState where
  nodes : Nat → NodeData
  size : Nat
  mode : InsertionMode
  original_insertion_mode : InsertionMode
  stack_of_open_elements : List Nat
  t : HtmlTokenizer
  token : Option HtmlToken

namespace ParserState

/-- Update one arena slot. -/
def setNode (st : ParserState) (i : Nat) (f : NodeData → NodeData) : ParserState :=
  { st with nodes := fun j => if j = i then f (st.nodes j) else st.nodes j }

/-- Embeds `HtmlParser::new` on a fresh tokenizer: a `Window` owning just the
Document root, mode `Initial`, empty stack. -/
def new (t : HtmlTokenizer) : ParserState :=
  { nodes := fun _ => NodeData.new .Document, size := 1, mode := .Initial,
    original_insertion_mode := .Initial, stack_of_open_elements := [],
    t := t, token := none }

/-- The sibling-chain walk inside `HtmlParser::insert_element`: starting from
the current node's first child, follow `next_sibling` to the last sibling.
The Rust `loop` never terminates on a cyclic chain; fuel models that. -/
def last_sibling_from : Nat → (Nat → NodeData) → Nat → Option Nat
  | 0, _, _ => none
  | fuel + 1, nodes, i =>
    match (nodes i).next_sibling with
    | none => some i
    | some j => last_sibling_from fuel nodes j

/-- Embeds `HtmlParser::insert_element`: create the element, link it after the last
sibling under the current node (top of stack, or the document when the stack
is empty) — or as the first child — set the back references, and push it
onto the open-element stack. -/
def insert_element (st : ParserState) (tag : String) (attributes : List Attribute) :
    Except Fault ParserState :=
  let current := st.stack_of_open_elements.head?.getD 0
  match Element.new tag attributes with
  | none => .error (.panicked "failed to classify tag")
  | some e =>
    let n := st.size
    let st := { st with
      nodes := fun j => if j = n then NodeData.new (.Element e) else st.nodes j,
      size := n + 1 }
    let linked : Except Fault ParserState :=
      match (st.nodes current).first_child with
      | some f =>
          match last_sibling_from st.size st.nodes f with
          | none => .error .outOfFuel
          | some l =>
              let st := st.setNode l fun nd => { nd with next_sibling := some n }
              .ok (st.setNode n fun nd => { nd with previous_sibling := some f })
      | none => .ok (st.setNode current fun nd => { nd with first_child := some n })
    match linked with
    | .error e => .error e
    | .ok st =>
      let st := st.setNode current fun nd => { nd with last_child := some n }
      let st := st.setNode n fun nd => { nd with parent := some current }
      .ok { st with stack_of_open_elements := n :: st.stack_of_open_elements }

/-- Embeds `HtmlParser::insert_char`: append to the current text node if the current
node is text; drop pure whitespace at a boundary; otherwise create a text
node, link it (next sibling of the FIRST child when a child exists), set the
back references and push it onto the stack. -/
def insert_char (st : ParserState) (c : Char) : ParserState :=
  match st.stack_of_open_elements.head? with
  | none => st
  | some current =>
    match (st.nodes current).kind with
    | .Text s => st.setNode current fun nd => { nd with kind := .Text (s.push c) }
    | _ =>
      if c = '\n' ∨ c = ' ' then st
      else
        let n := st.size
        let st := { st with
          nodes := fun j =>
            if j = n then NodeData.new (.Text (String.push "" c)) else st.nodes j,
          size := n + 1 }
        let st :=
          match (st.nodes current).first_child with
          | some f =>
              let st := st.setNode f fun nd => { nd with next_sibling := some n }
              st.setNode n fun nd => { nd with previous_sibling := some f }
          | none => st.setNode current fun nd => { nd with first_child := some n }
        let st := st.setNode current fun nd => { nd with last_child := some n }
        let st := st.setNode n fun nd => { nd with parent := some current }
        { st with stack_of_open_elements := n :: st.stack_of_open_elements }

/-- Embeds `HtmlParser::pop_current_node`: pop only when the top of the stack has
the given element kind; report whether it popped. -/
def pop_current_node (st : ParserState) (element_kind : ElementKind) :
    Bool × ParserState :=
  match st.stack_of_open_elements.head? with
  | none => (false, st)
  | some current =>
    if (st.nodes current).element_kind = some element_kind then
      (true, { st with stack_of_open_elements := st.stack_of_open_elements.tail })
    else (false, st)

/-- Embeds `HtmlParser::contain_in_stack`: membership scan for an element kind. -/
def contain_in_stack (st : ParserState) (element_kind : ElementKind) : Bool :=
  st.stack_of_open_elements.any fun i =>
    (st.nodes i).element_kind == some element_kind

/-- The popping loop of `HtmlParser::pop_until` (runs after the assertion). -/
def pop_until_go (nodes : Nat → NodeData) (element_kind : ElementKind) :
    List Nat → List Nat
  | [] => []
  | i :: rest =>
    if (nodes i).element_kind = some element_kind then rest
    else pop_until_go nodes element_kind rest

/-- Embeds `HtmlParser::pop_until`: asserts the kind is present in the stack (a Rust
panic otherwise), then pops until the matching element has been popped. -/
def pop_until (st : ParserState) (element_kind : ElementKind) :
    Except Fault ParserState :=
  if st.contain_in_stack element_kind then
    .ok { st with stack_of_open_elements :=
      pop_until_go st.nodes element_kind st.stack_of_open_elements }
  else .error (.panicked "stack doesn't have an element")

/-- Embeds `token = self.t.next()`: pull the next token from the tokenizer. -/
def advance (st : ParserState) : Except Fault ParserState := do
  let (tok, t) ← st.t.next
  .ok { st with token := tok, t := t }

/-- One pass of the `while token.is_some()` loop body of
`HtmlParser::construct_tree`: dispatch on the insertion mode and the current
token. `.inl` is the source's `continue` (with the mutated parser), `.inr`
is its mid-loop `return self.window.clone()`. -/
def iter (st : ParserState) : Except Fault (ParserState ⊕ ParserState) :=
  match st.mode with
  | .Initial =>
    match st.token with
    | some (.char _) => do
        let st ← advance st
        .ok (.inl st)
    | _ => .ok (.inl st)
  | .BeforeHtml =>
    match st.token with
    | some (.char c) =>
        if c = ' ' ∨ c = '\n' then do
          let st ← advance st
          .ok (.inl st)
        else do
          let st ← insert_element st "html" []
          .ok (.inl { st with mode := .BeforeHead })
    | some (.StartTag tag _ attrs) =>
        if tag = "html" then do
          let st ← insert_element st tag attrs
          let st ← advance { st with mode := .BeforeHead }
          .ok (.inl st)
        else do
          let st ← insert_element st "html" []
          .ok (.inl { st with mode := .BeforeHead })
    | some (.EndTag _) => do
        let st ← insert_element st "html" []
        .ok (.inl { st with mode := .BeforeHead })
    | _ => .ok (.inr st)
  | .BeforeHead =>
    match st.token with
    | some (.char c) =>
        if c = ' ' ∨ c = '\n' then do
          let st ← advance st
          .ok (.inl st)
        else do
          let st ← insert_element st "head" []
          .ok (.inl { st with mode := .InHead })
    | some (.StartTag tag _ attrs) =>
        if tag = "head" then do
          let st ← insert_element st tag attrs
          let st ← advance { st with mode := .InHead }
          .ok (.inl st)
        else do
          let st ← insert_element st "head" []
          .ok (.inl { st with mode := .InHead })
    | some (.EndTag _) => do
        let st ← insert_element st "head" []
        .ok (.inl { st with mode := .InHead })
    | _ => .ok (.inr st)
  | .InHead =>
    match st.token with
    | some (.char c) =>
        if c = ' ' ∨ c = '\n' then do
          let st := insert_char st c
          let st ← advance st
          .ok (.inl st)
        else do
          let st ← advance st
          .ok (.inl st)
    | some (.StartTag tag _ attrs) =>
        if tag = "style" ∨ tag = "script" then do
          let st ← insert_element st tag attrs
          let st := { st with original_insertion_mode := st.mode, mode := .Text }
          let st ← advance st
          .ok (.inl st)
        else if tag = "body" then do
          let st ← pop_until st .Head
          .ok (.inl { st with mode := .AfterHead })
        else
          match ElementKind.from_str tag with
          | some _ => do
              let st ← pop_until st .Head
              .ok (.inl { st with mode := .AfterHead })
          | none => do
              let st ← advance st
              .ok (.inl st)
    | some (.EndTag tag) =>
        if tag = "head" then do
          let st ← advance { st with mode := .AfterHead }
          let st ← pop_until st .Head
          .ok (.inl st)
        else do
          let st ← advance st
          .ok (.inl st)
    | _ => .ok (.inr st)
  | .AfterHead =>
    match st.token with
    | some (.char c) =>
        if c = ' ' ∨ c = '\n' then do
          let st := insert_char st c
          let st ← advance st
          .ok (.inl st)
        else do
          let st ← insert_element st "body" []
          .ok (.inl { st with mode := .InBody })
    | some (.StartTag tag _ attrs) =>
        if tag = "body" then do
          let st ← insert_element st tag attrs
          let st ← advance st
          .ok (.inl { st with mode := .InBody })
        else do
          let st ← insert_element st "body" []
          .ok (.inl { st with mode := .InBody })
    | some (.EndTag _) => do
        let st ← insert_element st "body" []
        .ok (.inl { st with mode := .InBody })
    | _ => .ok (.inr st)
  | .InBody =>
    match st.token with
    | some (.StartTag tag _ attrs) =>
        if tag = "p" ∨ tag = "h1" ∨ tag = "h2" ∨ tag = "a" then do
          let st ← insert_element st tag attrs
          let st ← advance st
          .ok (.inl st)
        else do
          let st ← advance st
          .ok (.inl st)
    | some (.EndTag tag) =>
        if tag = "body" then do
          let st ← advance { st with mode := .AfterBody }
          if st.contain_in_stack .Body then do
            let st ← pop_until st .Body
            .ok (.inl st)
          else .ok (.inl st)
        else if tag = "html" then
          match pop_current_node st .Body with
          | (true, st) =>
              let st := { st with mode := .AfterBody }
              (match pop_current_node st .Html with
               | (true, st) => .ok (.inl st)
               | (false, _) => .error (.panicked "assertion failed: pop_current_node html"))
          | (false, st) => do
              let st ← advance st
              .ok (.inl st)
        else if tag = "p" ∨ tag = "h1" ∨ tag = "h2" ∨ tag = "a" then
          match ElementKind.from_str tag with
          | none => .error (.panicked "failed to convert string to ElementKind")
          | some ek => do
              let st ← advance st
              let st ← pop_until st ek
              .ok (.inl st)
        else do
          let st ← advance st
          .ok (.inl st)
    | some (.char c) => do
        let st := insert_char st c
        let st ← advance st
        .ok (.inl st)
    | _ => .ok (.inr st)
  | .Text =>
    match st.token with
    | some (.EndTag tag) =>
        if tag = "style" then do
          let st ← pop_until st .Style
          let st ← advance { st with mode := st.original_insertion_mode }
          .ok (.inl st)
        else if tag = "script" then do
          let st ← pop_until st .Script
          let st ← advance { st with mode := st.original_insertion_mode }
          .ok (.inl st)
        else .ok (.inl { st with mode := st.original_insertion_mode })
    | some (.char c) => do
        let st := insert_char st c
        let st ← advance st
        .ok (.inl st)
    | some (.StartTag _ _ _) => .ok (.inl { st with mode := st.original_insertion_mode })
    | _ => .ok (.inr st)
  | .AfterBody =>
    match st.token with
    | some (.char _) => do
        let st ← advance st
        .ok (.inl st)
    | some (.EndTag tag) =>
        if tag = "html" then do
          let st ← advance { st with mode := .AfterAfterBody }
          .ok (.inl st)
        else .ok (.inl { st with mode := .InBody })
    | some (.StartTag _ _ _) => .ok (.inl { st with mode := .InBody })
    | _ => .ok (.inr st)
  | .AfterAfterBody =>
    match st.token with
    | some (.char _) => do
        let st ← advance st
        .ok (.inl st)
    | some (.StartTag _ _ _) => .ok (.inl { st with mode := .InBody })
    | some (.EndTag _) => .ok (.inl { st with mode := .InBody })
    | _ => .ok (.inr st)

/-- The `while token.is_some()` loop of `HtmlParser::construct_tree`, on
fuel. A `none` token exits normally regardless of remaining fuel, exactly as
the Rust `while` guard does. -/
def run : Nat → ParserState → Except Fault ParserState
  | 0, st => if st.token.isNone then .ok st else .error .outOfFuel
  | fuel + 1, st =>
    if st.token.isNone then .ok st
    else
      match iter st with
      | .error e => .error e
      | .ok (.inl st') => run fuel st'
      | .ok (.inr st') => .ok st'

end ParserState

/-- Embeds `HtmlParser::construct_tree` end to end: fetch the first token, then run
the insertion-mode loop on the given fuel. -/
def construct_tree (fuel : Nat) (html : List Char) : Except Fault ParserState :=
  match (HtmlTokenizer.new html).next with
  | .error e => .error e
  | .ok (tok, t) =>
      ParserState.run fuel { ParserState.new t with token := tok, t := t }

/-! ## Theorems settling the claims -/

/-- Helper: the selector skip loop spins forever once the token stream is
exhausted without an `OpenCurly`: `peek` keeps answering `None` and `next`
consumes nothing, so no amount of fuel completes the loop. -/
theorem skipUntilOpenCurly_nil (fuel : Nat) :
    CssParser.skipUntilOpenCurly fuel [] = .error .outOfFuel := by
  induction fuel with
  | zero => rfl
  | succ n ih => simpa [CssParser.skipUntilOpenCurly] using ih

/-- Helper: the skip loop also exhausts all fuel when the stream holds just
the pseudo-class colon and nothing else. -/
theorem skipUntilOpenCurly_colon (fuel : Nat) :
    CssParser.skipUntilOpenCurly fuel [CssToken.Colon] = .error .outOfFuel := by
  cases fuel with
  | zero => rfl
  | succ n => simpa [CssParser.skipUntilOpenCurly] using skipUntilOpenCurly_nil n

/-- Embeds `consume_qualified_rule` on this token sequence runs out of every fuel
bound: in the Rust source the corresponding loop never terminates. -/
def ConsumeQualifiedRuleDiverges (ts : List CssToken) : Prop :=
  ∀ fuel, CssParser.consume_qualified_rule fuel ts = .error .outOfFuel

/-- Claim C9 counterexample: on the token sequence of the truncated rule
`a:` — input exhausted before any open-curly, selector containing a
pseudo-class colon — `consume_qualified_rule` does NOT terminate: the
`while peek != Some(OpenCurly)` skip loop in `consume_selector` spins
forever, refuting "terminates on every token sequence". -/
theorem C9_pseudo_class_skip_diverges :
    ConsumeQualifiedRuleDiverges [CssToken.Ident "a", CssToken.Colon] := by
  intro fuel
  cases fuel with
  | zero => rfl
  | succ n =>
    cases n with
    | zero => rfl
    | succ m =>
      simp only [CssParser.consume_qualified_rule, CssParser.qualified_rule_loop,
        CssParser.consume_selector, CssParser.skipUntilOpenCurly,
        List.tail_cons, List.head?_cons, skipUntilOpenCurly_nil]
      rfl

/-- Claim C9 as amended: when the input is exhausted before an open-curly
token and the pseudo-class/at-keyword skip loop is never entered,
`consume_qualified_rule` terminates with no rule — on an already-exhausted
stream, and on a truncated trailing rule with a plain identifier selector —
and the calling rule loop then stops, silently dropping the truncated
trailing rule (`h1` after the complete `p` rule). -/
theorem C9_truncated_rule_dropped_outside_skip_loop :
    CssParser.consume_qualified_rule 2 ([] : List CssToken) = .ok (none, [])
    ∧ CssParser.consume_qualified_rule 4 [CssToken.Ident "h1"] = .ok (none, [])
    ∧ parseCss "p \x7b \x7d h1 " =
        .ok { rules := [{ selector := .TypeSelector "p", declarations := [] }] } :=
  ⟨rfl, rfl, rfl⟩

/-- Claim C1 counterexample: the stylesheet `"*"` makes the CSS tokenizer hit
its `unimplemented!` arm — parsing panics instead of degrading, refuting
"parsing never throws (panics/aborts) on bad input" as stated. -/
theorem C1_css_star_panics :
    parseCss "*" = .error (.panicked "unimplemented: char is not implemented yet") :=
  rfl

/-- Claim C1 as amended: within the supported character set and away from the
abort cases, parsing degrades rather than throwing — a malformed declaration
(`color red`, missing colon) is dropped while the rule survives, a truncated
trailing rule (`h1` with no block) is dropped while earlier rules survive,
and malformed markup (`<>`) is degraded by the HTML tokenizer — but outside
that envelope parsing aborts (see the counterexample). -/
theorem C1_degrades_on_supported_bad_input :
    parseCss "p \x7b color red; \x7d" =
        .ok { rules := [{ selector := .TypeSelector "p", declarations := [] }] }
    ∧ parseCss "p \x7b \x7d h1 " =
        .ok { rules := [{ selector := .TypeSelector "p", declarations := [] }] }
    ∧ tokenizeHtml "<>" = .ok [.char '>'] :=
  ⟨rfl, rfl, rfl⟩

/-- Claim C2: at the claim's own example inputs — an HTML tag with an
unterminated double-quoted attribute value, and a stylesheet ending inside a
quoted string — both tokenizers read past the end of their input buffer and
panic. The `is_eof` test (`pos > len`) and the `pos >= len` guard in
`consume_string_token` sit after the unchecked reads, so the promised
mid-state `Eof` / best-effort end never happens. -/
theorem C2_truncated_input_panics :
    tokenizeHtml "<p class=\"A" = .error (.panicked "index out of bounds")
    ∧ tokenizeCss "\"ab" = .error (.panicked "index out of bounds") :=
  ⟨rfl, rfl⟩

/-- Claim C7: tokenizing `<p class="A" id='B' foo=bar></p>` yields a
StartTag for `p` with exactly the attribute pairs (class,A), (id,B),
(foo,bar) in source order, across double-quoted, single-quoted and unquoted
value syntax. -/
theorem C7_attribute_round_trip :
    tokenizeHtml "<p class=\"A\" id=\x27B\x27 foo=bar></p>" =
      .ok [.StartTag "p" false
            [{ name := "class", value := "A" },
             { name := "id", value := "B" },
             { name := "foo", value := "bar" }],
           .EndTag "p"] :=
  rfl

/-- Claim C8: `p { color: red; }` parses to one rule with TypeSelector "p"
and the single declaration (color, Ident red); `#id { color: blue }` — no
semicolon before the closing curly — still yields exactly one declaration,
under the IdSelector with the leading `#` stripped from the hash token's
captured value. -/
theorem C8_css_round_trip :
    parseCss "p \x7b color: red; \x7d" =
      .ok { rules := [{ selector := .TypeSelector "p",
                        declarations := [{ property := "color", value := .Ident "red" }] }] }
    ∧ parseCss "#id \x7b color: blue \x7d" =
      .ok { rules := [{ selector := .IdSelector "id",
                        declarations := [{ property := "color", value := .Ident "blue" }] }] } :=
  ⟨rfl, rfl⟩

/-- Helper: reduction of a successful `Except` bind. -/
theorem exceptOkBind {ε α β : Type} (a : α) (f : α → Except ε β) :
    (Except.ok a : Except ε α) >>= f = f a := rfl

/-- Helper: reduction of a failed `Except` bind. -/
theorem exceptErrorBind {ε α β : Type} (e : ε) (f : α → Except ε β) :
    (Except.error e : Except ε α) >>= f = Except.error e := rfl

/-- Helper: with the insertion mode `Initial` and a start-tag token in hand,
one pass of the construct-tree loop does nothing at all — the `Initial` arm
only handles character tokens and never changes the mode — so the `while`
loop reprocesses the very same state forever (all fuel is consumed). -/
theorem ParserState.run_stuck_initial (fuel : Nat) (st : ParserState)
    (hm : st.mode = .Initial)
    (ht : ∃ tag sc attrs, st.token = some (.StartTag tag sc attrs)) :
    ParserState.run fuel st = .error .outOfFuel := by
  obtain ⟨tag, sc, attrs, ht⟩ := ht
  induction fuel with
  | zero => simp [ParserState.run, ht]
  | succ n ih =>
      simpa [ParserState.run, ParserState.iter, hm, ht] using ih

/-- An empty tokenizer (over the empty input). -/
def emptyTok : HtmlTokenizer := HtmlTokenizer.new []

/-- Claim C4: `construct_tree` does NOT yield a Window for every markup
string — on `"<html>"` the `Initial` mode never transfers control to
`BeforeHtml`, so the loop reprocesses the same start-tag token forever (it
exhausts every fuel bound). The empty-string half of the claim does hold:
parsing `""` returns the bare root Document with no child. -/
theorem C4_construct_tree_stuck_and_empty :
    (∀ fuel, construct_tree fuel "<html>".data = .error .outOfFuel)
    ∧ (∃ st, construct_tree 1 "".data = .ok st
        ∧ (st.nodes 0).first_child = none ∧ st.size = 1) := by
  constructor
  · intro fuel
    exact ParserState.run_stuck_initial fuel _ rfl ⟨"html", false, [], rfl⟩
  · exact ⟨_, rfl, rfl, rfl⟩

/-- Claim C6: parsing the repository's own test markup
`<html><head></head><body></body></html>` never returns at all — the first
token is the `html` start tag, the `Initial` insertion mode has no
fall-through to `BeforeHtml`, and the loop spins on that token forever
(every fuel bound is exhausted), instead of producing Document → html →
head with body as head's next sibling. -/
theorem C6_test_markup_parse_never_returns (fuel : Nat) :
    construct_tree fuel "<html><head></head><body></body></html>".data =
      .error .outOfFuel :=
  ParserState.run_stuck_initial fuel _ rfl ⟨"html", false, [], rfl⟩

/-- Claim C3 as amended: the ONLY stray-end-tag case the `InBody` mode
recovers from is `</body>`: when no `body` element is on the open-element
stack, the `contain_in_stack` guard skips the pop, the mode still moves to
`AfterBody`, the next token is fetched, and nothing faults. -/
theorem C3_stray_body_end_tag_recovers (st : ParserState) (tok : Option HtmlToken)
    (t : HtmlTokenizer)
    (hm : st.mode = .InBody)
    (htok : st.token = some (.EndTag "body"))
    (hnext : st.t.next = .ok (tok, t))
    (hbody : st.contain_in_stack .Body = false) :
    ParserState.iter st =
      .ok (.inl { st with mode := .AfterBody, token := tok, t := t }) := by
  have hb2 : ParserState.contain_in_stack
      { st with mode := .AfterBody, token := tok, t := t } .Body = false := hbody
  simp [ParserState.iter, hm, htok, ParserState.advance, hnext, hb2, exceptOkBind]

/-- Witness for the amended claim C3 at a concrete state: `InBody`, empty
open-element stack, `</body>` in hand, exhausted tokenizer. -/
theorem C3_stray_body_end_tag_recovers_witness :
    ParserState.iter { ParserState.new emptyTok with
        mode := .InBody, token := some (.EndTag "body") } =
      .ok (.inl { ParserState.new emptyTok with
        mode := .AfterBody, token := none, t := emptyTok }) :=
  C3_stray_body_end_tag_recovers _ none emptyTok rfl rfl rfl rfl

/-- The DOM arena of a parser that has opened `<html><body>`: Document (0)
→ html (1) → body (2), with html and body still on the open-element stack. -/
def strayArena : Nat → NodeData := fun i =>
  if i = 0 then
    { kind := .Document, first_child := some 1, next_sibling := none,
      previous_sibling := none, parent := none, last_child := some 1 }
  else if i = 1 then
    { kind := .Element { tag := "html", kind := .Html, attributes := [] },
      first_child := some 2, next_sibling := none, previous_sibling := none,
      parent := some 0, last_child := some 2 }
  else if i = 2 then
    { kind := .Element { tag := "body", kind := .Body, attributes := [] },
      first_child := none, next_sibling := none, previous_sibling := none,
      parent := some 1, last_child := none }
  else NodeData.new .Document

/-- The `InBody` parser state holding a stray `</p>` end tag: open elements
are html and body only, so no `p` was ever opened. -/
def strayPState : ParserState :=
  { nodes := strayArena, size := 3, mode := .InBody,
    original_insertion_mode := .Initial, stack_of_open_elements := [2, 1],
    t := emptyTok, token := some (.EndTag "p") }

/-- Claim C3 counterexample: a stray `</p>` reaching `InBody` with no `p` on
the open-element stack is NOT recovered from — the `p`/`h1`/`h2`/`a` end-tag
arms call `pop_until` unguarded, and its `assert!(contain_in_stack)` fails,
a fatal Rust panic. -/
theorem C3_stray_p_end_tag_panics :
    ParserState.iter strayPState = .error (.panicked "stack doesn't have an element") :=
  rfl

/-- The pure link structure of a node: every field except the kind payload.
Two nodes with equal `links` are linked into the tree identically. -/
def NodeData.links (n : NodeData) :
    Option Nat × Option Nat × Option Nat × Option Nat × Option Nat :=
  (n.first_child, n.next_sibling, n.previous_sibling, n.parent, n.last_child)

/-- Claim C5 as amended: when the current node (top of stack) is a non-text
element and the character is not a space or newline, the new text node is
linked exactly as `insert_element` links a new element — same sibling/first
child link, same previous-sibling back reference, same parent and last-child
references, same push onto the open-element stack — PROVIDED the current
node has at most one child. (With two or more children the two differ; see
the counterexample.) -/
theorem C5_insert_char_matches_insert_element_upto_one_child
    (st : ParserState) (c : Char) (cur : Nat) (rest : List Nat) (e : Element)
    (hstack : st.stack_of_open_elements = cur :: rest)
    (hcur : cur < st.size)
    (hkind : (st.nodes cur).kind = .Element e)
    (hc : ¬(c = '\n' ∨ c = ' '))
    (hchild : (st.nodes cur).first_child = none
      ∨ ∃ f, (st.nodes cur).first_child = some f ∧ f < st.size
          ∧ (st.nodes f).next_sibling = none) :
    ∃ st2, ParserState.insert_element st "p" [] = .ok st2
      ∧ (ParserState.insert_char st c).size = st2.size
      ∧ (ParserState.insert_char st c).stack_of_open_elements =
          st2.stack_of_open_elements
      ∧ ∀ i, ((ParserState.insert_char st c).nodes i).links =
          (st2.nodes i).links := by
  have hcurne : cur ≠ st.size := Nat.ne_of_lt hcur
  obtain hnone | ⟨f, hf1, hf2, hf3⟩ := hchild
  · simp [ParserState.insert_element, ParserState.insert_char, hstack, hkind,
      hnone, hcurne, hc, Element.new, ElementKind.from_str]
    refine ⟨by simp [ParserState.setNode], by simp [ParserState.setNode], ?_⟩
    intro i
    simp [ParserState.setNode, NodeData.links, NodeData.new]
    split_ifs <;> simp_all
  · have hfne : f ≠ st.size := Nat.ne_of_lt hf2
    simp [ParserState.insert_element, ParserState.insert_char, hstack, hkind,
      hf1, hf3, hcurne, hfne, hc, Element.new, ElementKind.from_str,
      ParserState.last_sibling_from]
    refine ⟨by simp [ParserState.setNode], by simp [ParserState.setNode], ?_⟩
    intro i
    simp [ParserState.setNode, NodeData.links, NodeData.new]
    split_ifs <;> simp_all

/-- A one-child DOM arena: Document (0) → body (1) → p (2), body open. -/
def oneChildArena : Nat → NodeData := fun i =>
  if i = 0 then
    { kind := .Document, first_child := some 1, next_sibling := none,
      previous_sibling := none, parent := none, last_child := some 1 }
  else if i = 1 then
    { kind := .Element { tag := "body", kind := .Body, attributes := [] },
      first_child := some 2, next_sibling := none, previous_sibling := none,
      parent := some 0, last_child := some 2 }
  else if i = 2 then
    { kind := .Element { tag := "p", kind := .P, attributes := [] },
      first_child := none, next_sibling := none, previous_sibling := none,
      parent := some 1, last_child := none }
  else NodeData.new .Document

/-- Parser state over `oneChildArena` with `body` as the current node. -/
def oneChildState : ParserState :=
  { nodes := oneChildArena, size := 3, mode := .InBody,
    original_insertion_mode := .Initial, stack_of_open_elements := [1],
    t := emptyTok, token := none }

/-- Witness for the amended claim C5 at a concrete one-child state. -/
theorem C5_insert_char_matches_insert_element_upto_one_child_witness :
    ∃ st2, ParserState.insert_element oneChildState "p" [] = .ok st2
      ∧ (ParserState.insert_char oneChildState 'x').size = st2.size
      ∧ (ParserState.insert_char oneChildState 'x').stack_of_open_elements =
          st2.stack_of_open_elements
      ∧ ∀ i, ((ParserState.insert_char oneChildState 'x').nodes i).links =
          (st2.nodes i).links :=
  C5_insert_char_matches_insert_element_upto_one_child oneChildState 'x' 1 []
    { tag := "body", kind := .Body, attributes := [] }
    rfl (by decide) rfl (by decide) (Or.inr ⟨2, rfl, by decide, rfl⟩)

/-- A two-children DOM arena: Document (0) → body (1) with children p (2)
and p (3) in source order (2's next sibling is 3); body open. -/
def twoChildArena : Nat → NodeData := fun i =>
  if i = 0 then
    { kind := .Document, first_child := some 1, next_sibling := none,
      previous_sibling := none, parent := none, last_child := some 1 }
  else if i = 1 then
    { kind := .Element { tag := "body", kind := .Body, attributes := [] },
      first_child := some 2, next_sibling := none, previous_sibling := none,
      parent := some 0, last_child := some 3 }
  else if i = 2 then
    { kind := .Element { tag := "p", kind := .P, attributes := [] },
      first_child := none, next_sibling := some 3, previous_sibling := none,
      parent := some 1, last_child := none }
  else if i = 3 then
    { kind := .Element { tag := "p", kind := .P, attributes := [] },
      first_child := none, next_sibling := none, previous_sibling := some 2,
      parent := some 1, last_child := none }
  else NodeData.new .Document

/-- Parser state over `twoChildArena` with `body` as the current node. -/
def twoChildState : ParserState :=
  { nodes := twoChildArena, size := 4, mode := .InBody,
    original_insertion_mode := .Initial, stack_of_open_elements := [1],
    t := emptyTok, token := none }

/-- Claim C5 counterexample: inserting the character `x` under a current
node that already has TWO children (2 then 3) does NOT append after the last
node of the sibling chain: the new text node (index 4) is hooked directly
after the FIRST child — node 2's next sibling is overwritten to 4, node 3's
next sibling stays `none` — unlike `insert_element`'s append-after-last
linking that the claim promises. -/
theorem C5_two_children_clobbered :
    ((ParserState.insert_char twoChildState 'x').nodes 2).next_sibling = some 4
    ∧ ((ParserState.insert_char twoChildState 'x').nodes 3).next_sibling = none
    ∧ ((ParserState.insert_char twoChildState 'x').nodes 4).kind = .Text "x"
    ∧ ¬ (((ParserState.insert_char twoChildState 'x').nodes 3).next_sibling = some 4) := by
  refine ⟨rfl, rfl, rfl, by decide⟩

/-- A concrete sibling chain in the arena: the listed indices are linked in
order by `next_sibling`, and the final one has no next sibling. -/
def SibChain (nodes : Nat → NodeData) : List Nat → Prop
  | [] => True
  | [x] => (nodes x).next_sibling = none
  | x :: y :: rest => (nodes x).next_sibling = some y ∧ SibChain nodes (y :: rest)

/-- Helper: a sibling chain only reads arena slots at its own members, so it
transports to any arena that agrees on them. -/
theorem sibChain_of_agree (nodes nodes' : Nat → NodeData) :
    ∀ ch : List Nat, (∀ i ∈ ch, nodes' i = nodes i) →
      SibChain nodes ch → SibChain nodes' ch
  | [], _, _ => trivial
  | [x], h, hch => by
      simpa [SibChain, h x (by simp)] using hch
  | x :: y :: rest, h, hch => by
      obtain ⟨h1, h2⟩ := hch
      refine ⟨by rw [h x (by simp)]; exact h1, ?_⟩
      exact sibChain_of_agree nodes nodes' (y :: rest)
        (fun i hi => h i (List.mem_cons_of_mem x hi)) h2

/-- Helper: the element named by `getLast?` is a member of the list. -/
theorem mem_of_getLast?_eq : ∀ (ch : List Nat) (a : Nat),
    ch.getLast? = some a → a ∈ ch
  | [], _, h => by simp at h
  | [x], a, h => by
      obtain rfl : a = x := by simpa using h.symm
      simp
  | x :: y :: rest, a, h =>
      List.mem_cons_of_mem x
        (mem_of_getLast?_eq (y :: rest) a (by simpa [List.getLast?_cons_cons] using h))

/-- Helper: the last element of a sibling chain has no next sibling. -/
theorem sibChain_getLast_none (nodes : Nat → NodeData) :
    ∀ (ch : List Nat) (l : Nat), SibChain nodes ch → ch.getLast? = some l →
      (nodes l).next_sibling = none
  | [], _, _, hl => by simp at hl
  | [x], l, hch, hl => by
      obtain rfl : x = l := by simpa using hl
      exact hch
  | _ :: y :: rest, l, hch, hl =>
      sibChain_getLast_none nodes (y :: rest) l hch.2
        (by simpa [List.getLast?_cons_cons] using hl)

/-- Helper: the sibling walk of `insert_element` follows a chain to its last
element, given fuel at least the chain's length. -/
theorem last_sibling_from_of_chain (nodes : Nat → NodeData) :
    ∀ (ch : List Nat) (fuel : Nat) (f l : Nat),
      SibChain nodes ch → ch.head? = some f → ch.getLast? = some l →
      ch.length ≤ fuel →
      ParserState.last_sibling_from fuel nodes f = some l
  | [], _, _, _, _, hh, _, _ => by simp at hh
  | [x], fuel, f, l, hch, hh, hl, hfuel => by
      obtain rfl : f = x := by simpa using hh.symm
      obtain rfl : l = f := by simpa using hl.symm
      obtain ⟨k, rfl⟩ : ∃ k, fuel = k + 1 := ⟨fuel - 1, by simp at hfuel; omega⟩
      simp only [SibChain] at hch
      simp [ParserState.last_sibling_from, hch]
  | x :: y :: rest, fuel, f, l, hch, hh, hl, hfuel => by
      obtain rfl : f = x := by simpa using hh.symm
      obtain ⟨h1, h2⟩ := hch
      obtain ⟨k, rfl⟩ : ∃ k, fuel = k + 1 := ⟨fuel - 1, by simp at hfuel; omega⟩
      have hl' : (y :: rest).getLast? = some l := by
        simpa [List.getLast?_cons_cons] using hl
      have hrec := last_sibling_from_of_chain nodes (y :: rest) k y l h2 (by simp) hl'
        (by simp at hfuel ⊢; omega)
      simp [ParserState.last_sibling_from, h1, hrec]

/-- Claim C10 counterexample: the claim's forward-order conjunct is false for
`insert_char`. At a parent whose children are 2 then 3, inserting the text
character `x` (new node 4) does set the back reference to the first child
(previous-sibling of 4 is 2), but it OVERWRITES the first child's
next-sibling link: 2 → 4 with the 2 → 3 link destroyed and 3 left with no
next sibling — the forward `next_sibling` chain no longer records true
source order. -/
theorem C10_insert_char_breaks_forward_chain :
    ((ParserState.insert_char twoChildState 'x').nodes 4).previous_sibling = some 2
    ∧ ((ParserState.insert_char twoChildState 'x').nodes 2).next_sibling = some 4
    ∧ ((ParserState.insert_char twoChildState 'x').nodes 3).next_sibling = none
    ∧ ¬ (((ParserState.insert_char twoChildState 'x').nodes 2).next_sibling = some 3) := by
  refine ⟨rfl, rfl, rfl, by decide⟩

/-- Claim C10 as amended: when a new node is added under a current node whose
existing children form the sibling chain `f → … → l` (any length ≥ 2, so the
new node is a third-or-later child), `insert_element` sets the new node's
previous-sibling back reference to the FIRST child `f` — never to its true
immediate predecessor `l` — while ITS forward chain does keep true source
order: the new node is appended after `l` and every other arena slot is left
untouched. `insert_char` sets the same first-child back reference, but its
forward chain is clobbered instead (see the counterexample). -/
theorem C10_previous_sibling_is_first_child
    (st : ParserState) (c : Char) (cur f l : Nat) (ch : List Nat)
    (rest : List Nat) (e : Element)
    (hstack : st.stack_of_open_elements = cur :: rest)
    (hcur : cur < st.size)
    (hkind : (st.nodes cur).kind = .Element e)
    (hfirst : (st.nodes cur).first_child = some f)
    (hch : SibChain st.nodes ch)
    (hhead : ch.head? = some f)
    (hlastel : ch.getLast? = some l)
    (hlen2 : 2 ≤ ch.length)
    (hmem : ∀ i ∈ ch, i < st.size)
    (hfuel : ch.length ≤ st.size + 1)
    (hc : ¬(c = '\n' ∨ c = ' ')) :
    ∃ st2, ParserState.insert_element st "p" [] = .ok st2
      ∧ (st2.nodes st.size).previous_sibling = some f
      ∧ (st2.nodes st.size).previous_sibling ≠ some l
      ∧ (st2.nodes l).next_sibling = some st.size
      ∧ (∀ i, i ≠ l → i ≠ cur → i ≠ st.size → st2.nodes i = st.nodes i)
      ∧ st2.stack_of_open_elements = st.size :: st.stack_of_open_elements
      ∧ ((ParserState.insert_char st c).nodes st.size).previous_sibling = some f := by
  obtain ⟨a, b, tl, rfl⟩ : ∃ a b tl, ch = a :: b :: tl := by
    match ch, hlen2 with
    | x :: y :: tl, _ => exact ⟨x, y, tl, rfl⟩
  obtain rfl : f = a := by simpa using hhead.symm
  have hf : f < st.size := hmem f (by simp)
  have hl : l < st.size :=
    hmem l (mem_of_getLast?_eq (f :: b :: tl) l hlastel)
  have hnone : (st.nodes l).next_sibling = none :=
    sibChain_getLast_none st.nodes (f :: b :: tl) l hch hlastel
  have hne : f ≠ l := by
    intro h
    rw [← h] at hnone
    rw [hch.1] at hnone
    exact Option.noConfusion hnone
  have hcurne : cur ≠ st.size := Nat.ne_of_lt hcur
  have hfne : f ≠ st.size := Nat.ne_of_lt hf
  have hlne : l ≠ st.size := Nat.ne_of_lt hl
  have hch' : SibChain
      (fun j => if j = st.size then
          { kind := NodeKind.Element { tag := "p", kind := ElementKind.P, attributes := [] },
            first_child := none, next_sibling := none, previous_sibling := none,
            parent := none, last_child := none }
        else st.nodes j) (f :: b :: tl) :=
    sibChain_of_agree st.nodes _ (f :: b :: tl)
      (fun i hi => by simp [Nat.ne_of_lt (hmem i hi)]) hch
  have hwalk : ParserState.last_sibling_from (st.size + 1)
      (fun j => if j = st.size then
          { kind := NodeKind.Element { tag := "p", kind := ElementKind.P, attributes := [] },
            first_child := none, next_sibling := none, previous_sibling := none,
            parent := none, last_child := none }
        else st.nodes j) f = some l :=
    last_sibling_from_of_chain _ (f :: b :: tl) (st.size + 1) f l hch' rfl hlastel hfuel
  have hcurne' : st.size ≠ cur := fun h => hcurne h.symm
  have hfne' : st.size ≠ f := fun h => hfne h.symm
  have hlne' : st.size ≠ l := fun h => hlne h.symm
  have hlf : l ≠ f := fun h => hne h.symm
  simp [ParserState.insert_element, ParserState.insert_char, hstack, hkind,
    hfirst, hcurne, hfne, hlne, hcurne', hfne', hlne', hne, hlf, hc,
    Element.new, ElementKind.from_str, hwalk, ParserState.setNode,
    NodeData.new]
  refine ⟨?_, ?_⟩
  · split_ifs <;> rfl
  · intro i hil hicur hin
    have hin' : ¬ (i = st.size) := hin
    have hil' : ¬ (i = l) := hil
    have hicur' : ¬ (i = cur) := hicur
    simp [hin', hil', hicur']

/-- Witness for the amended claim C10 at the concrete two-children state
(chain 2 → 3 under parent 1): the new third child (index 4) gets
previous-sibling 2 (the first child), not 3 (its true predecessor); 3's next
sibling becomes 4 and every other slot is untouched; `insert_char` likewise
back-references the first child. -/
theorem C10_previous_sibling_is_first_child_witness :
    ∃ st2, ParserState.insert_element twoChildState "p" [] = .ok st2
      ∧ (st2.nodes 4).previous_sibling = some 2
      ∧ (st2.nodes 4).previous_sibling ≠ some 3
      ∧ (st2.nodes 3).next_sibling = some 4
      ∧ (∀ i, i ≠ 3 → i ≠ 1 → i ≠ 4 → st2.nodes i = twoChildState.nodes i)
      ∧ st2.stack_of_open_elements = [4, 1]
      ∧ ((ParserState.insert_char twoChildState 'x').nodes 4).previous_sibling = some 2 :=
  C10_previous_sibling_is_first_child twoChildState 'x' 1 2 3 [2, 3] []
    { tag := "body", kind := .Body, attributes := [] }
    rfl (by decide) rfl rfl ⟨rfl, rfl⟩ rfl rfl (by decide) (by decide) (by decide)
    (by decide)

end Saba
